import Mathlib

/-!
Verification of the inventory-keeper module (QR-code presence tracker and
inventory ledger).

The configuration validation of `src/module.go` is embedded directly from the
source.  The later iteration of the module (presence tracker with debounced
appearance/disappearance, the inventory ledger and the inventory commands of
the dispatcher) is exercised by `src/module_test.go` but its implementation
file is not part of the source tree; those components are modelled from the
specification (each such definition carries a `Modelled from the spec:` doc
comment).  Time is modelled in milliseconds as `Nat`; the zero timestamp is
`0`.
-/

namespace InventoryKeeper

/-! ## Configuration (src/module.go) -/

/-- Config as declared in src/module.go: the required camera name and the
required QR vision service name. -/
structure Config where
  cameraName : String
  qrVisionService : String
deriving Repr, DecidableEq

/-- Validate, embedded from src/module.go lines 62-76: reject an empty
camera_name, then an empty qr_vision_service, else return the two required
dependencies in order and no optional dependencies. -/
def Config.validate (cfg : Config) : Except String (List String × List String) :=
  if cfg.cameraName = "" then
    .error "camera_name is required"
  else if cfg.qrVisionService = "" then
    .error "qr_vision_service is required"
  else
    .ok ([cfg.cameraName, cfg.qrVisionService], [])

/-- Modelled from the spec: the later iteration's Config (implementation file
absent from src/, exercised by src/module_test.go lines 69-95) adds the
tri-state optional integer fields scan_interval_ms and grace_period_ms
(pointer-to-int in Go: unset, zero, or a custom value). -/
structure ConfigV4 where
  cameraName : String
  qrVisionService : String
  scanIntervalMs : Option Int
  gracePeriodMs : Option Int
deriving Repr, DecidableEq

/-- Modelled from the spec: validation of the later Config.  Unset, zero and
positive interval values are accepted; a negative scan_interval_ms or
grace_period_ms is a validation error.  The required-dependency list is
unchanged from the embedded Validate. -/
def ConfigV4.validate (cfg : ConfigV4) : Except String (List String × List String) :=
  if cfg.cameraName = "" then
    .error "camera_name is required"
  else if cfg.qrVisionService = "" then
    .error "qr_vision_service is required"
  else if cfg.scanIntervalMs.any (fun n => n < 0) then
    .error "scan_interval_ms must not be negative"
  else if cfg.gracePeriodMs.any (fun n => n < 0) then
    .error "grace_period_ms must not be negative"
  else
    .ok ([cfg.cameraName, cfg.qrVisionService], [])

/-! ## Inventory ledger -/

/-- Modelled from the spec: the two lifecycle states of an inventory item. -/
inductive ItemState where
  | onShelf
  | checkedOut
deriving Repr, DecidableEq

/-- Wire rendering of an item state, as in the command responses. -/
def ItemState.render : ItemState → String
  | .onShelf => "on_shelf"
  | .checkedOut => "checked_out"

/-- Modelled from the spec: an inventory item.  `checkedInAt` is the timestamp
of the last transition into on_shelf, `checkedOutAt` of the last transition
into checked_out; the zero value is 0. -/
structure InventoryItem where
  itemID : String
  itemName : String
  state : ItemState
  checkedInAt : Nat
  checkedOutAt : Nat
deriving Repr, DecidableEq

/-- The ledger contents: the entries of the inventory map, keyed by itemID. -/
abbrev Inventory := List InventoryItem

/-- Lookup of an item by its key. -/
def lookupItem (inv : Inventory) (id : String) : Option InventoryItem :=
  inv.find? (fun it => it.itemID == id)

/-- Modelled from the spec: errors of the ledger operations. -/
inductive LedgerError where
  | alreadyExists
  | notFound
deriving Repr, DecidableEq

/-- Modelled from the spec: addItem fails with a conflict when the key is
already present (leaving the ledger unchanged), else creates the item in
on_shelf with checkedInAt = now. -/
def addItem (now : Nat) (id name : String) (inv : Inventory) :
    Except LedgerError InventoryItem × Inventory :=
  match lookupItem inv id with
  | some _ => (.error .alreadyExists, inv)
  | none =>
    let item : InventoryItem := ⟨id, name, .onShelf, now, 0⟩
    (.ok item, inv ++ [item])

/-- The pointwise update a checkout applies to the item. -/
def checkoutUpdate (now : Nat) (it : InventoryItem) : InventoryItem :=
  { it with state := .checkedOut, checkedOutAt := now }

/-- Modelled from the spec: checkoutItem fails with not-found when the key is
absent; otherwise it idempotently transitions the item to checked_out, sets
checkedOutAt = now, and returns the previous state together with the updated
item. -/
def checkoutItem (now : Nat) (id : String) (inv : Inventory) :
    Except LedgerError (ItemState × InventoryItem) × Inventory :=
  match lookupItem inv id with
  | none => (.error .notFound, inv)
  | some it =>
    (.ok (it.state, checkoutUpdate now it),
     inv.map (fun x => if x.itemID == id then checkoutUpdate now x else x))

/-- The pointwise update a return applies to the item: transition to on_shelf,
set checkedInAt = now and clear checkedOutAt to the zero value. -/
def returnUpdate (now : Nat) (it : InventoryItem) : InventoryItem :=
  { it with state := .onShelf, checkedInAt := now, checkedOutAt := 0 }

/-- Modelled from the spec: returnItem, symmetric to checkout. -/
def returnItem (now : Nat) (id : String) (inv : Inventory) :
    Except LedgerError (ItemState × InventoryItem) × Inventory :=
  match lookupItem inv id with
  | none => (.error .notFound, inv)
  | some it =>
    (.ok (it.state, returnUpdate now it),
     inv.map (fun x => if x.itemID == id then returnUpdate now x else x))

/-- Modelled from the spec: removeItem fails with not-found when the key is
absent, else deletes the entry unconditionally. -/
def removeItem (id : String) (inv : Inventory) :
    Except LedgerError Bool × Inventory :=
  match lookupItem inv id with
  | none => (.error .notFound, inv)
  | some _ => (.ok true, inv.filter (fun x => !(x.itemID == id)))

/-- One ledger operation, for reachability statements. -/
inductive LedgerOp where
  | add (now : Nat) (id name : String)
  | checkout (now : Nat) (id : String)
  | giveBack (now : Nat) (id : String)
  | remove (id : String)
deriving Repr, DecidableEq

/-- State effect of one ledger operation. -/
def applyOp (inv : Inventory) : LedgerOp → Inventory
  | .add now id name => (addItem now id name inv).2
  | .checkout now id => (checkoutItem now id inv).2
  | .giveBack now id => (returnItem now id inv).2
  | .remove id => (removeItem id inv).2

/-- The ledger contents reached by running a sequence of operations from the
initially empty inventory. -/
def runOps (ops : List LedgerOp) : Inventory :=
  ops.foldl applyOp []

/-- The data-model invariant: any item sitting on the shelf has its
checkedOutAt timestamp cleared to the zero value. -/
def shelfClearInv (inv : Inventory) : Prop :=
  ∀ it ∈ inv, it.state = .onShelf → it.checkedOutAt = 0

/-! ## Presence tracker -/

/-- Structured item data carried by a QR payload (ItemQRData in the source).
The parse step of the scan cycle yields a value exactly when the payload is
JSON carrying both the item_id and the item_name field; any other payload
parses to none and is tracked as opaque content. -/
structure ItemQRData where
  itemID : String
  itemName : String
deriving Repr, DecidableEq

/-- Modelled from the spec: a tracked QR code of the visible set
(DetectedQRCode in the source).  `content` is the natural key;
`pendingRemoval` is true once the code stopped being detected but is still
within its grace period; `disappearedAt` records when that happened and is
cleared (to 0) on reappearance. -/
structure DetectedQRCode where
  content : String
  itemID : String
  itemName : String
  firstSeen : Nat
  lastSeen : Nat
  pendingRemoval : Bool
  disappearedAt : Nat
deriving Repr, DecidableEq

/-- The entries of the tracker's visible-code map, keyed by content. -/
abbrev VisibleCodes := List DetectedQRCode

/-- Appearance/disappearance events emitted by a scan cycle. -/
inductive ScanEvent where
  | appeared (content : String)
  | disappeared (content : String)
deriving Repr, DecidableEq

/-- Lookup of a visible code by its content key. -/
def lookupCode (v : VisibleCodes) (c : String) : Option DetectedQRCode :=
  v.find? (fun code => code.content == c)

/-- The keys of the visible set are pairwise distinct (the Go visible set is a
map keyed by content). -/
def keysNodup (v : VisibleCodes) : Prop :=
  (v.map (fun code => code.content)).Nodup

/-- Modelled from the spec: the update applied to an already-present payload:
lastSeen is refreshed; if the code was pendingRemoval the flag is cleared and
disappearedAt reset (the reappeared-during-grace-period path). -/
def refreshCode (now : Nat) (code : DetectedQRCode) : DetectedQRCode :=
  if code.pendingRemoval then
    { code with lastSeen := now, pendingRemoval := false, disappearedAt := 0 }
  else
    { code with lastSeen := now }

/-- Modelled from the spec: the entry inserted for a newly detected payload:
firstSeen = lastSeen = now, pendingRemoval = false; itemID/itemName populated
from the parse step on success, left empty otherwise. -/
def freshCode (parse : String → Option ItemQRData) (now : Nat) (p : String) :
    DetectedQRCode :=
  match parse p with
  | some d => ⟨p, d.itemID, d.itemName, now, now, false, 0⟩
  | none => ⟨p, "", "", now, now, false, 0⟩

/-- Modelled from the spec: step 2-4 of the scan cycle.  Each detected payload
is parsed and either inserted (emitting an appearance event) or refreshed. -/
def processDetections (parse : String → Option ItemQRData) (now : Nat)
    (det : List String) (v : VisibleCodes) : VisibleCodes × List ScanEvent :=
  det.foldl
    (fun acc p =>
      match lookupCode acc.1 p with
      | some _ =>
        (acc.1.map (fun code =>
          if code.content == p then refreshCode now code else code), acc.2)
      | none =>
        (acc.1 ++ [freshCode parse now p], acc.2 ++ [.appeared p]))
    (v, [])

/-- Modelled from the spec: step 5 of the scan cycle, decided per visible
entry.  An entry present in this cycle's detections is kept as is; a missing
entry is deleted at once when the grace period is zero, marked pendingRemoval
with disappearedAt = now on its first missed scan, and deleted once
now - disappearedAt reaches the grace period. -/
def removeStep (grace now : Nat) (det : List String) (code : DetectedQRCode) :
    Option DetectedQRCode :=
  if code.content ∈ det then some code
  else if grace = 0 then none
  else if !code.pendingRemoval then
    some { code with pendingRemoval := true, disappearedAt := now }
  else if grace ≤ now - code.disappearedAt then none
  else some code

/-- Modelled from the spec: the disappearance pass over the (already updated)
visible set, returning the surviving entries and one disappearance event per
deleted entry. -/
def processDisappearances (grace now : Nat) (det : List String)
    (v : VisibleCodes) : VisibleCodes × List ScanEvent :=
  (v.filterMap (removeStep grace now det),
   (v.filter (fun code => (removeStep grace now det code).isNone)).map
     (fun code => .disappeared code.content))

/-- Modelled from the spec: one poll-compare-update cycle (scanAndCompare in
the source).  A detector failure aborts the cycle without mutating the
visible set and without emitting events (the error is logged, never
propagated); otherwise new detections are processed first and absence is then
computed against the updated set. -/
def scanAndCompare (grace : Nat) (parse : String → Option ItemQRData)
    (now : Nat) (detections : Except String (List String)) (v : VisibleCodes) :
    VisibleCodes × List ScanEvent :=
  match detections with
  | .error _ => (v, [])
  | .ok det =>
    let a := processDetections parse now det v
    let b := processDisappearances grace now det a.1
    (b.1, a.2 ++ b.2)

/-! ## Command dispatcher -/

/-- Modelled from the spec: getInventory returns all items (optionally
filtered to a single state) together with the total count and the per-state
counts of the returned items. -/
def getInventory (filter : Option ItemState) (inv : Inventory) :
    List InventoryItem × Nat × Nat × Nat :=
  let items := match filter with
    | none => inv
    | some st => inv.filter (fun it => it.state == st)
  (items, items.length,
   (items.filter (fun it => it.state == ItemState.onShelf)).length,
   (items.filter (fun it => it.state == ItemState.checkedOut)).length)

/-- The fields of a DoCommand request map that the inventory commands read:
the command name and the optional string fields item_id, item_name and
state. -/
structure CmdMap where
  command : Option String
  itemId : Option String
  itemName : Option String
  stateFilter : Option String
deriving Repr, DecidableEq

/-- Command responses, modelled as the key/value pairs of the returned map
(timestamps rendered as their numeric value stands in for the RFC 3339
rendering). -/
abbrev Response := List (String × String)

/-- Wire rendering of an item for a get_inventory response. -/
def renderItem (it : InventoryItem) : Response :=
  [("item_id", it.itemID), ("item_name", it.itemName),
   ("state", it.state.render)]

/-- Wire rendering of a getInventory result: the item list followed by the
total and per-state counts. -/
def inventoryResponse (r : List InventoryItem × Nat × Nat × Nat) : Response :=
  (r.1.map renderItem).flatten ++
  [("total_count", toString r.2.1),
   ("on_shelf_count", toString r.2.2.1),
   ("checked_out_count", toString r.2.2.2)]

/-- Modelled from the spec: the command dispatcher (DoCommand).  It contains
no logic of its own: each named action decodes its required fields and
delegates to the corresponding ledger operation, returning that operation's
result as a response map, or the operation's error.  An unrecognized command
name is an unknown-command error. -/
def doCommand (now : Nat) (cmd : CmdMap) (inv : Inventory) :
    Except String Response × Inventory :=
  match cmd.command with
  | none => (.error "command field is required and must be a string", inv)
  | some "ping" =>
    (.ok [("status", "ok"), ("message", "Inventory keeper is running!")], inv)
  | some "add_item" =>
    match cmd.itemId, cmd.itemName with
    | some id, some name =>
      match addItem now id name inv with
      | (.ok item, inv2) =>
        (.ok [("item_id", item.itemID), ("item_name", item.itemName),
              ("state", item.state.render),
              ("checked_in_at", toString item.checkedInAt)], inv2)
      | (.error _, inv2) => (.error ("item already exists: " ++ id), inv2)
    | _, _ => (.error "item_id and item_name are required", inv)
  | some "get_inventory" =>
    match cmd.stateFilter with
    | some "on_shelf" => (.ok (inventoryResponse (getInventory (some .onShelf) inv)), inv)
    | some "checked_out" => (.ok (inventoryResponse (getInventory (some .checkedOut) inv)), inv)
    | some other => (.error ("invalid state filter: " ++ other), inv)
    | none => (.ok (inventoryResponse (getInventory none inv)), inv)
  | some "checkout_item" =>
    match cmd.itemId with
    | some id =>
      match checkoutItem now id inv with
      | (.ok (prev, item), inv2) =>
        (.ok [("item_id", item.itemID), ("item_name", item.itemName),
              ("state", item.state.render),
              ("previous_state", prev.render),
              ("checked_out_at", toString item.checkedOutAt)], inv2)
      | (.error _, inv2) => (.error ("item not found: " ++ id), inv2)
    | none => (.error "item_id is required", inv)
  | some "return_item" =>
    match cmd.itemId with
    | some id =>
      match returnItem now id inv with
      | (.ok (prev, item), inv2) =>
        (.ok [("item_id", item.itemID), ("item_name", item.itemName),
              ("state", item.state.render),
              ("previous_state", prev.render),
              ("checked_in_at", toString item.checkedInAt)], inv2)
      | (.error _, inv2) => (.error ("item not found: " ++ id), inv2)
    | none => (.error "item_id is required", inv)
  | some "remove_item" =>
    match cmd.itemId with
    | some id =>
      match removeItem id inv with
      | (.ok _, inv2) =>
        (.ok [("item_id", id), ("removed", "true")], inv2)
      | (.error _, inv2) => (.error ("item not found: " ++ id), inv2)
    | none => (.error "item_id is required", inv)
  | some other => (.error ("unknown command: " ++ other), inv)

/-! ## Derived forms used by the proofs -/

/-- The visible-set effect of processing one detected payload (the first
component of one step of `processDetections`). -/
def stepV (parse : String → Option ItemQRData) (now : Nat)
    (v : VisibleCodes) (p : String) : VisibleCodes :=
  match lookupCode v p with
  | some _ =>
    v.map (fun code => if code.content == p then refreshCode now code else code)
  | none => v ++ [freshCode parse now p]

/-- The entry a detected payload ends up with after the detection pass: the
refreshed entry when already present, a fresh entry otherwise. -/
def detUpdate (parse : String → Option ItemQRData) (now : Nat)
    (v : VisibleCodes) (c : String) : DetectedQRCode :=
  match lookupCode v c with
  | some code => refreshCode now code
  | none => freshCode parse now c

/-! ## General lemmas about keyed association lists -/

theorem find?_map_comm {α : Type} (g : α → α) (p : α → Bool)
    (hp : ∀ x, p (g x) = p x) :
    ∀ l : List α, (l.map g).find? p = (l.find? p).map g := by
  intro l
  induction l with
  | nil => rfl
  | cons a t ih =>
    by_cases ha : p a
    · rw [List.map_cons, List.find?_cons_of_pos _ ((hp a).trans ha),
        List.find?_cons_of_pos _ ha]
      rfl
    · rw [List.map_cons, List.find?_cons_of_neg, List.find?_cons_of_neg _ (by simpa using ha), ih]
      rw [hp a]
      simpa using ha

/-! ## Ledger lemmas -/

theorem lookupItem_id {inv : Inventory} {id : String} {it : InventoryItem}
    (h : lookupItem inv id = some it) : it.itemID = id := by
  have := List.find?_some h
  simpa using this

theorem lookupItem_map_update (u : InventoryItem → InventoryItem)
    (hu : ∀ x, (u x).itemID = x.itemID) (inv : Inventory) (id : String) :
    lookupItem (inv.map (fun x => if x.itemID == id then u x else x)) id =
      (lookupItem inv id).map (fun x => if x.itemID == id then u x else x) := by
  unfold lookupItem
  exact find?_map_comm _ _ (fun x => by by_cases hx : x.itemID == id <;> simp [hx, hu]) inv

theorem addItem_fst_some {inv : Inventory} {id : String} {it : InventoryItem}
    (h : lookupItem inv id = some it) (now : Nat) (name : String) :
    addItem now id name inv = (.error .alreadyExists, inv) := by
  unfold addItem
  rw [h]

theorem addItem_eq_none {inv : Inventory} {id : String}
    (h : lookupItem inv id = none) (now : Nat) (name : String) :
    addItem now id name inv =
      (.ok ⟨id, name, .onShelf, now, 0⟩, inv ++ [⟨id, name, .onShelf, now, 0⟩]) := by
  unfold addItem
  rw [h]

theorem checkoutItem_eq_some {inv : Inventory} {id : String} {it : InventoryItem}
    (h : lookupItem inv id = some it) (now : Nat) :
    checkoutItem now id inv =
      (.ok (it.state, checkoutUpdate now it),
       inv.map (fun x => if x.itemID == id then checkoutUpdate now x else x)) := by
  unfold checkoutItem
  rw [h]

theorem checkoutItem_eq_none {inv : Inventory} {id : String}
    (h : lookupItem inv id = none) (now : Nat) :
    checkoutItem now id inv = (.error .notFound, inv) := by
  unfold checkoutItem
  rw [h]

theorem returnItem_eq_some {inv : Inventory} {id : String} {it : InventoryItem}
    (h : lookupItem inv id = some it) (now : Nat) :
    returnItem now id inv =
      (.ok (it.state, returnUpdate now it),
       inv.map (fun x => if x.itemID == id then returnUpdate now x else x)) := by
  unfold returnItem
  rw [h]

theorem returnItem_eq_none {inv : Inventory} {id : String}
    (h : lookupItem inv id = none) (now : Nat) :
    returnItem now id inv = (.error .notFound, inv) := by
  unfold returnItem
  rw [h]

theorem removeItem_eq_some {inv : Inventory} {id : String} {it : InventoryItem}
    (h : lookupItem inv id = some it) :
    removeItem id inv = (.ok true, inv.filter (fun x => !(x.itemID == id))) := by
  unfold removeItem
  rw [h]

theorem removeItem_eq_none {inv : Inventory} {id : String}
    (h : lookupItem inv id = none) :
    removeItem id inv = (.error .notFound, inv) := by
  unfold removeItem
  rw [h]

theorem lookupItem_checkout {inv : Inventory} {id : String} {it : InventoryItem}
    (h : lookupItem inv id = some it) (now : Nat) :
    lookupItem (checkoutItem now id inv).2 id = some (checkoutUpdate now it) := by
  rw [checkoutItem_eq_some h now]
  simp only
  rw [lookupItem_map_update (checkoutUpdate now) (fun x => rfl) inv id, h]
  simp [lookupItem_id h]

theorem lookupItem_return {inv : Inventory} {id : String} {it : InventoryItem}
    (h : lookupItem inv id = some it) (now : Nat) :
    lookupItem (returnItem now id inv).2 id = some (returnUpdate now it) := by
  rw [returnItem_eq_some h now]
  simp only
  rw [lookupItem_map_update (returnUpdate now) (fun x => rfl) inv id, h]
  simp [lookupItem_id h]

/-! ## Claim theorems: ledger -/

/-- C4.  addItem fails with a conflict error when the itemID is already
present and leaves the ledger contents unchanged by the failed call; when the
itemID is absent it creates exactly one new item, in on_shelf with
checkedInAt = now (and that item is then found under its key). -/
theorem addItem_conflict_or_create (now : Nat) (id name : String) (inv : Inventory) :
    ((∃ it, lookupItem inv id = some it) →
      addItem now id name inv = (.error .alreadyExists, inv)) ∧
    (lookupItem inv id = none →
      addItem now id name inv =
        (.ok ⟨id, name, .onShelf, now, 0⟩, inv ++ [⟨id, name, .onShelf, now, 0⟩]) ∧
      lookupItem (addItem now id name inv).2 id = some ⟨id, name, .onShelf, now, 0⟩) := by
  constructor
  · rintro ⟨it, hit⟩
    unfold addItem
    rw [hit]
  · intro hnone
    have heq : addItem now id name inv =
        (.ok ⟨id, name, .onShelf, now, 0⟩, inv ++ [⟨id, name, .onShelf, now, 0⟩]) := by
      unfold addItem
      rw [hnone]
    refine ⟨heq, ?_⟩
    rw [heq]
    unfold lookupItem at hnone ⊢
    rw [List.find?_append, hnone]
    simp

/-- Witness for C4 at a concrete ledger. -/
theorem addItem_conflict_or_create_witness :
    addItem 7 "x" "X" [⟨"x", "X", .onShelf, 3, 0⟩] =
      (.error .alreadyExists, [⟨"x", "X", .onShelf, 3, 0⟩]) ∧
    addItem 7 "y" "Y" [⟨"x", "X", .onShelf, 3, 0⟩] =
      (.ok ⟨"y", "Y", .onShelf, 7, 0⟩,
       [⟨"x", "X", .onShelf, 3, 0⟩, ⟨"y", "Y", .onShelf, 7, 0⟩]) :=
  ⟨(addItem_conflict_or_create 7 "x" "X" [⟨"x", "X", .onShelf, 3, 0⟩]).1
      ⟨⟨"x", "X", .onShelf, 3, 0⟩, rfl⟩,
   ((addItem_conflict_or_create 7 "y" "Y" [⟨"x", "X", .onShelf, 3, 0⟩]).2 rfl).1⟩

/-- C5.  checkoutItem and returnItem are idempotent: on a present itemID each
call succeeds whatever the current state, moves the item to its single target
state (checked_out resp. on_shelf), stamps the relevant timestamp with now,
and returns the state the item had immediately before the call; a repeated
call at a strictly later time succeeds again, reports the target state as the
previous state, and strictly advances the timestamp; on an absent itemID both
operations fail with not-found and leave the ledger untouched. -/
theorem checkout_return_idempotent (t1 t2 : Nat) (id : String) (inv : Inventory) :
    (∀ it, lookupItem inv id = some it →
      (checkoutItem t1 id inv).1 = .ok (it.state, checkoutUpdate t1 it) ∧
      (checkoutUpdate t1 it).state = .checkedOut ∧
      (checkoutUpdate t1 it).checkedOutAt = t1 ∧
      lookupItem (checkoutItem t1 id inv).2 id = some (checkoutUpdate t1 it) ∧
      (returnItem t1 id inv).1 = .ok (it.state, returnUpdate t1 it) ∧
      (returnUpdate t1 it).state = .onShelf ∧
      (returnUpdate t1 it).checkedInAt = t1 ∧
      lookupItem (returnItem t1 id inv).2 id = some (returnUpdate t1 it)) ∧
    (lookupItem inv id = none →
      checkoutItem t1 id inv = (.error .notFound, inv) ∧
      returnItem t1 id inv = (.error .notFound, inv)) ∧
    (t1 < t2 → ∀ it, lookupItem inv id = some it →
      (checkoutItem t2 id (checkoutItem t1 id inv).2).1 =
        .ok (.checkedOut, checkoutUpdate t2 (checkoutUpdate t1 it)) ∧
      (checkoutUpdate t1 it).checkedOutAt <
        (checkoutUpdate t2 (checkoutUpdate t1 it)).checkedOutAt ∧
      (returnItem t2 id (returnItem t1 id inv).2).1 =
        .ok (.onShelf, returnUpdate t2 (returnUpdate t1 it)) ∧
      (returnUpdate t1 it).checkedInAt <
        (returnUpdate t2 (returnUpdate t1 it)).checkedInAt) := by
  refine ⟨?_, ?_, ?_⟩
  · intro it h
    exact ⟨by rw [checkoutItem_eq_some h t1], rfl, rfl, lookupItem_checkout h t1,
      by rw [returnItem_eq_some h t1], rfl, rfl, lookupItem_return h t1⟩
  · intro h
    exact ⟨checkoutItem_eq_none h t1, returnItem_eq_none h t1⟩
  · intro hlt it h
    have h1 := lookupItem_checkout h t1
    have h2 := lookupItem_return h t1
    have hco : (checkoutItem t2 id (checkoutItem t1 id inv).2).1 =
        .ok ((checkoutUpdate t1 it).state, checkoutUpdate t2 (checkoutUpdate t1 it)) := by
      rw [checkoutItem_eq_some h1 t2]
    have hre : (returnItem t2 id (returnItem t1 id inv).2).1 =
        .ok ((returnUpdate t1 it).state, returnUpdate t2 (returnUpdate t1 it)) := by
      rw [returnItem_eq_some h2 t2]
    exact ⟨hco, by simpa [checkoutUpdate] using hlt, hre,
      by simpa [returnUpdate] using hlt⟩

/-- Witness for C5 at a concrete ledger and times 4 < 9. -/
theorem checkout_return_idempotent_witness :
    (checkoutItem 4 "x" [⟨"x", "X", .onShelf, 3, 0⟩]).1 =
      .ok (.onShelf, ⟨"x", "X", .checkedOut, 3, 4⟩) ∧
    (checkoutItem 9 "x" (checkoutItem 4 "x" [⟨"x", "X", .onShelf, 3, 0⟩]).2).1 =
      .ok (.checkedOut, ⟨"x", "X", .checkedOut, 3, 9⟩) ∧
    checkoutItem 4 "zz" [⟨"x", "X", .onShelf, 3, 0⟩] =
      (.error .notFound, [⟨"x", "X", .onShelf, 3, 0⟩]) :=
  ⟨((checkout_return_idempotent 4 9 "x" [⟨"x", "X", .onShelf, 3, 0⟩]).1
      ⟨"x", "X", .onShelf, 3, 0⟩ rfl).1,
   (((checkout_return_idempotent 4 9 "x" [⟨"x", "X", .onShelf, 3, 0⟩]).2.2 (by decide)
      ⟨"x", "X", .onShelf, 3, 0⟩ rfl).1),
   ((checkout_return_idempotent 4 9 "zz" [⟨"x", "X", .onShelf, 3, 0⟩]).2.1 rfl).1⟩

theorem applyOp_preserves_shelfClearInv (inv : Inventory) (op : LedgerOp)
    (h : shelfClearInv inv) : shelfClearInv (applyOp inv op) := by
  cases op with
  | add now id name =>
    show shelfClearInv (addItem now id name inv).2
    cases hl : lookupItem inv id with
    | some it =>
      rw [addItem_fst_some hl now name]
      exact h
    | none =>
      rw [addItem_eq_none hl now name]
      intro it hmem hstate
      rcases List.mem_append.mp hmem with hin | hin
      · exact h it hin hstate
      · rcases List.mem_singleton.mp hin with rfl
        rfl
  | checkout now id =>
    show shelfClearInv (checkoutItem now id inv).2
    cases hl : lookupItem inv id with
    | none =>
      rw [checkoutItem_eq_none hl now]
      exact h
    | some it =>
      rw [checkoutItem_eq_some hl now]
      intro x hmem hstate
      rcases List.mem_map.mp hmem with ⟨y, hy, rfl⟩
      by_cases hid : (y.itemID == id) = true
      · rw [if_pos hid] at hstate
        exact absurd hstate (by simp [checkoutUpdate])
      · rw [if_neg hid] at hstate ⊢
        exact h y hy hstate
  | giveBack now id =>
    show shelfClearInv (returnItem now id inv).2
    cases hl : lookupItem inv id with
    | none =>
      rw [returnItem_eq_none hl now]
      exact h
    | some it =>
      rw [returnItem_eq_some hl now]
      intro x hmem hstate
      rcases List.mem_map.mp hmem with ⟨y, hy, rfl⟩
      by_cases hid : (y.itemID == id) = true
      · rw [if_pos hid]
        rfl
      · rw [if_neg hid] at hstate ⊢
        exact h y hy hstate
  | remove id =>
    show shelfClearInv (removeItem id inv).2
    cases hl : lookupItem inv id with
    | none =>
      rw [removeItem_eq_none hl]
      exact h
    | some it =>
      rw [removeItem_eq_some hl]
      intro x hmem hstate
      exact h x (List.mem_of_mem_filter hmem) hstate

/-- C6.  In every ledger state reachable by a sequence of operations from the
empty inventory, an item in on_shelf has checkedOutAt equal to the zero
timestamp (the transition into on_shelf resets it). -/
theorem reachable_shelfClearInv (ops : List LedgerOp) : shelfClearInv (runOps ops) := by
  have gen : ∀ (l : List LedgerOp) (inv : Inventory), shelfClearInv inv →
      shelfClearInv (l.foldl applyOp inv) := by
    intro l
    induction l with
    | nil => exact fun inv h => h
    | cons op t ih =>
      intro inv h
      exact ih (applyOp inv op) (applyOp_preserves_shelfClearInv inv op h)
  exact gen ops [] (by intro it hmem; cases hmem)

/-! ## Claim theorems: configuration -/

/-- C10.  Validate of src/module.go fails exactly when camera_name or
qr_vision_service is empty, checking camera_name first; on success it returns
precisely the required-dependency list [camera_name, qr_vision_service], an
empty optional list and no error. -/
theorem config_validate_exact (cfg : Config) :
    ((∃ e, cfg.validate = .error e) ↔
      cfg.cameraName = "" ∨ cfg.qrVisionService = "") ∧
    (cfg.cameraName = "" → cfg.validate = .error "camera_name is required") ∧
    (cfg.cameraName ≠ "" → cfg.qrVisionService = "" →
      cfg.validate = .error "qr_vision_service is required") ∧
    (cfg.cameraName ≠ "" → cfg.qrVisionService ≠ "" →
      cfg.validate = .ok ([cfg.cameraName, cfg.qrVisionService], [])) := by
  unfold Config.validate
  by_cases hc : cfg.cameraName = "" <;> by_cases hq : cfg.qrVisionService = "" <;>
    simp [hc, hq]

/-- Witness for C10: both required fields present yields the dependency list;
an empty camera_name is reported first even when both fields are empty. -/
theorem config_validate_exact_witness :
    Config.validate ⟨"shelf-camera", "qr-detector"⟩ =
      .ok (["shelf-camera", "qr-detector"], []) ∧
    Config.validate ⟨"", ""⟩ = .error "camera_name is required" :=
  ⟨(config_validate_exact ⟨"shelf-camera", "qr-detector"⟩).2.2.2 (by decide) (by decide),
   (config_validate_exact ⟨"", ""⟩).2.1 rfl⟩

/-- C7.  Validation of the later configuration rejects, with a validation
error, every configuration whose scan_interval_ms or grace_period_ms is set
negative, and accepts every configuration in which each of those fields is
unset, zero or positive, given the required name fields are present. -/
theorem configV4_validate_intervals (cfg : ConfigV4)
    (hc : cfg.cameraName ≠ "") (hq : cfg.qrVisionService ≠ "") :
    ((∃ n, cfg.scanIntervalMs = some n ∧ n < 0) ∨
      (∃ n, cfg.gracePeriodMs = some n ∧ n < 0) →
      ∃ e, cfg.validate = .error e) ∧
    ((∀ n, cfg.scanIntervalMs = some n → 0 ≤ n) →
      (∀ n, cfg.gracePeriodMs = some n → 0 ≤ n) →
      cfg.validate = .ok ([cfg.cameraName, cfg.qrVisionService], [])) := by
  unfold ConfigV4.validate
  rw [if_neg hc, if_neg hq]
  constructor
  · rintro (⟨n, hn, hneg⟩ | ⟨n, hn, hneg⟩)
    · rw [hn]
      simp [Option.any, hneg]
    · cases hs : cfg.scanIntervalMs.any (fun n => n < 0) with
      | true => simp [hs]
      | false =>
        rw [hn]
        simp [hs, Option.any, hneg]
  · intro h1 h2
    have hs : cfg.scanIntervalMs.any (fun n => n < 0) = false := by
      cases ho : cfg.scanIntervalMs with
      | none => rfl
      | some n =>
        simpa [Option.any] using not_lt.mpr (h1 n ho)
    have hg : cfg.gracePeriodMs.any (fun n => n < 0) = false := by
      cases ho : cfg.gracePeriodMs with
      | none => rfl
      | some n =>
        simpa [Option.any] using not_lt.mpr (h2 n ho)
    simp [hs, hg]

/-- Witness for C7: a negative scan_interval_ms is rejected, and an unset
interval together with a zero grace period is accepted. -/
theorem configV4_validate_intervals_witness :
    (∃ e, ConfigV4.validate ⟨"cam", "qr", some (-100), none⟩ = .error e) ∧
    ConfigV4.validate ⟨"cam", "qr", none, some 0⟩ = .ok (["cam", "qr"], []) :=
  ⟨(configV4_validate_intervals ⟨"cam", "qr", some (-100), none⟩ (by decide) (by decide)).1
      (Or.inl ⟨-100, rfl, by decide⟩),
   (configV4_validate_intervals ⟨"cam", "qr", none, some 0⟩ (by decide) (by decide)).2
      (by intro n hn; cases hn) (by intro n hn; cases hn; decide)⟩

/-! ## Tracker lemmas: content preservation and lookups -/

theorem refreshCode_content (now : Nat) (code : DetectedQRCode) :
    (refreshCode now code).content = code.content := by
  unfold refreshCode
  split <;> rfl

theorem freshCode_content (parse : String → Option ItemQRData) (now : Nat) (p : String) :
    (freshCode parse now p).content = p := by
  unfold freshCode
  cases parse p <;> rfl

theorem refreshCode_refreshCode (now : Nat) (code : DetectedQRCode) :
    refreshCode now (refreshCode now code) = refreshCode now code := by
  unfold refreshCode
  by_cases h : code.pendingRemoval = true <;> simp [h]

theorem refreshCode_freshCode (parse : String → Option ItemQRData) (now : Nat) (p : String) :
    refreshCode now (freshCode parse now p) = freshCode parse now p := by
  unfold freshCode refreshCode
  cases parse p <;> simp

theorem removeStep_content {grace now : Nat} {det : List String}
    {code c2 : DetectedQRCode} (h : removeStep grace now det code = some c2) :
    c2.content = code.content := by
  unfold removeStep at h
  split_ifs at h <;> (cases h; rfl)

theorem lookupCode_content {v : VisibleCodes} {c : String} {code : DetectedQRCode}
    (h : lookupCode v c = some code) : code.content = c := by
  have := List.find?_some h
  simpa using this

theorem lookupCode_of_mem_nodup {v : VisibleCodes} (hnd : keysNodup v)
    {code : DetectedQRCode} (h : code ∈ v) : lookupCode v code.content = some code := by
  induction v with
  | nil => cases h
  | cons a t ih =>
    have hnd2 : a.content ∉ t.map (fun x => x.content) ∧ keysNodup t := by
      simpa [keysNodup] using hnd
    rcases List.mem_cons.mp h with rfl | hmem
    · unfold lookupCode
      rw [List.find?_cons_of_pos _ (by simp)]
    · have hne : a.content ≠ code.content := by
        intro he
        exact hnd2.1 (he ▸ List.mem_map.mpr ⟨code, hmem, rfl⟩)
      unfold lookupCode
      rw [List.find?_cons_of_neg _ (by simpa using hne)]
      exact ih hnd2.2 hmem

theorem lookupCode_map_refresh (now : Nat) (v : VisibleCodes) (p c : String) :
    lookupCode
      (v.map (fun code => if code.content == p then refreshCode now code else code)) c =
    (lookupCode v c).map
      (fun code => if code.content == p then refreshCode now code else code) :=
  find?_map_comm _ _
    (fun x => by
      by_cases hx : (x.content == p) = true <;> simp [hx, refreshCode_content]) v

theorem lookupCode_append_single (v : VisibleCodes) (x : DetectedQRCode) (c : String) :
    lookupCode (v ++ [x]) c =
      match lookupCode v c with
      | some y => some y
      | none => if x.content == c then some x else none := by
  induction v with
  | nil =>
    cases hx : (x.content == c) <;> simp [lookupCode, List.find?_cons, hx]
  | cons a t ih =>
    cases ha : (a.content == c) with
    | true => simp [lookupCode, List.find?_cons, ha]
    | false =>
      simp only [lookupCode, List.cons_append, List.find?_cons, ha] at ih ⊢
      exact ih

theorem lookupCode_stepV (parse : String → Option ItemQRData) (now : Nat)
    (v : VisibleCodes) (p c : String) :
    lookupCode (stepV parse now v p) c =
      if c = p then some (detUpdate parse now v c) else lookupCode v c := by
  unfold stepV
  cases hl : lookupCode v p with
  | some code =>
    rw [lookupCode_map_refresh]
    by_cases hc : c = p
    · subst hc
      rw [hl]
      have hcc : code.content = c := lookupCode_content hl
      simp [detUpdate, hl, hcc]
    · rw [if_neg hc]
      cases hl2 : lookupCode v c with
      | none => rfl
      | some code2 =>
        have hcc2 : code2.content = c := lookupCode_content hl2
        simp [hcc2, hc]
  | none =>
    rw [lookupCode_append_single]
    by_cases hc : c = p
    · subst hc
      rw [hl]
      simp [detUpdate, hl, freshCode_content]
    · rw [if_neg hc]
      cases hl2 : lookupCode v c with
      | none => simp [freshCode_content, Ne.symm hc]
      | some code2 => rfl

theorem detUpdate_stepV (parse : String → Option ItemQRData) (now : Nat)
    (v : VisibleCodes) (p c : String) :
    detUpdate parse now (stepV parse now v p) c = detUpdate parse now v c := by
  unfold detUpdate
  rw [lookupCode_stepV]
  by_cases hcp : c = p
  · rw [if_pos hcp]
    cases hl : lookupCode v c with
    | some code => simp [detUpdate, hl, refreshCode_refreshCode]
    | none => simp [detUpdate, hl, refreshCode_freshCode]
  · rw [if_neg hcp]

theorem lookupCode_foldl_stepV (parse : String → Option ItemQRData) (now : Nat) :
    ∀ (det : List String) (v : VisibleCodes) (c : String),
      lookupCode (det.foldl (stepV parse now) v) c =
        if c ∈ det then some (detUpdate parse now v c) else lookupCode v c := by
  intro det
  induction det with
  | nil =>
    intro v c
    simp
  | cons p t ih =>
    intro v c
    rw [List.foldl_cons, ih]
    by_cases hct : c ∈ t
    · rw [if_pos hct, if_pos (List.mem_cons_of_mem _ hct), detUpdate_stepV]
    · rw [if_neg hct, lookupCode_stepV]
      by_cases hcp : c = p
      · rw [if_pos hcp, if_pos (by simp [hcp])]
      · rw [if_neg hcp, if_neg (by simp [hcp, hct])]

theorem processDetections_fst (parse : String → Option ItemQRData) (now : Nat)
    (det : List String) (v : VisibleCodes) :
    (processDetections parse now det v).1 = det.foldl (stepV parse now) v := by
  unfold processDetections
  suffices h : ∀ (acc : VisibleCodes × List ScanEvent),
      (det.foldl (fun acc p =>
        match lookupCode acc.1 p with
        | some _ =>
          (acc.1.map (fun code =>
            if code.content == p then refreshCode now code else code), acc.2)
        | none => (acc.1 ++ [freshCode parse now p], acc.2 ++ [.appeared p]))
        acc).1
      = det.foldl (stepV parse now) acc.1 by
    exact h (v, [])
  induction det with
  | nil =>
    intro acc
    rfl
  | cons p t ih =>
    intro acc
    rw [List.foldl_cons, List.foldl_cons]
    cases hl : lookupCode acc.1 p with
    | some code =>
      rw [show stepV parse now acc.1 p = acc.1.map (fun code =>
          if code.content == p then refreshCode now code else code) from by
        unfold stepV
        rw [hl]]
      exact ih _
    | none =>
      rw [show stepV parse now acc.1 p = acc.1 ++ [freshCode parse now p] from by
        unfold stepV
        rw [hl]]
      exact ih _

theorem lookupCode_processDetections (parse : String → Option ItemQRData)
    (now : Nat) (det : List String) (v : VisibleCodes) (c : String) :
    lookupCode (processDetections parse now det v).1 c =
      if c ∈ det then some (detUpdate parse now v c) else lookupCode v c := by
  rw [processDetections_fst, lookupCode_foldl_stepV]

theorem detUpdate_content (parse : String → Option ItemQRData) (now : Nat)
    (v : VisibleCodes) (c : String) :
    (detUpdate parse now v c).content = c := by
  unfold detUpdate
  cases hl : lookupCode v c with
  | some code => rw [refreshCode_content, lookupCode_content hl]
  | none => exact freshCode_content parse now c

/-! ## Tracker lemmas: distinct keys are preserved by a scan -/

theorem keysNodup_stepV (parse : String → Option ItemQRData) (now : Nat)
    (v : VisibleCodes) (p : String) (h : keysNodup v) :
    keysNodup (stepV parse now v p) := by
  unfold stepV
  cases hl : lookupCode v p with
  | some code =>
    unfold keysNodup at h ⊢
    have hkeys : (v.map (fun code =>
        if code.content == p then refreshCode now code else code)).map
          (fun code => code.content) = v.map (fun code => code.content) := by
      rw [List.map_map]
      apply List.map_congr_left
      intro a _
      by_cases ha : a.content = p <;> simp [ha, refreshCode_content]
    rw [hkeys]
    exact h
  | none =>
    unfold keysNodup at h ⊢
    rw [List.map_append]
    have hnotin : p ∉ v.map (fun code => code.content) := by
      intro hmem
      rcases List.mem_map.mp hmem with ⟨code, hcode, hc⟩
      have := List.find?_eq_none.mp hl code hcode
      simp [hc] at this
    simp only [List.map_cons, List.map_nil, freshCode_content]
    refine List.Nodup.append h (List.nodup_singleton p) ?_
    intro a ha hb
    rcases List.mem_singleton.mp hb with rfl
    exact hnotin ha

theorem keysNodup_foldl_stepV (parse : String → Option ItemQRData) (now : Nat) :
    ∀ (det : List String) (v : VisibleCodes), keysNodup v →
      keysNodup (det.foldl (stepV parse now) v) := by
  intro det
  induction det with
  | nil => exact fun v h => h
  | cons p t ih =>
    intro v h
    rw [List.foldl_cons]
    exact ih _ (keysNodup_stepV parse now v p h)

theorem keysNodup_processDetections (parse : String → Option ItemQRData)
    (now : Nat) (det : List String) (v : VisibleCodes) (h : keysNodup v) :
    keysNodup (processDetections parse now det v).1 := by
  rw [processDetections_fst]
  exact keysNodup_foldl_stepV parse now det v h

theorem keys_filterMap_sublist (grace now : Nat) (det : List String)
    (v : VisibleCodes) :
    ((v.filterMap (removeStep grace now det)).map (fun code => code.content)).Sublist
      (v.map (fun code => code.content)) := by
  induction v with
  | nil => simp
  | cons code t ih =>
    rw [List.filterMap_cons]
    cases hr : removeStep grace now det code with
    | none =>
      rw [List.map_cons]
      exact ih.cons _
    | some c2 =>
      rw [List.map_cons, List.map_cons, removeStep_content hr]
      exact ih.cons₂ _

theorem keysNodup_filterMap (grace now : Nat) (det : List String)
    (v : VisibleCodes) (h : keysNodup v) :
    keysNodup (v.filterMap (removeStep grace now det)) :=
  (keys_filterMap_sublist grace now det v).nodup h

theorem keysNodup_scan (grace : Nat) (parse : String → Option ItemQRData)
    (now : Nat) (det : List String) (v : VisibleCodes) (h : keysNodup v) :
    keysNodup (scanAndCompare grace parse now (.ok det) v).1 := by
  show keysNodup ((processDetections parse now det v).1.filterMap
    (removeStep grace now det))
  exact keysNodup_filterMap grace now det _
    (keysNodup_processDetections parse now det v h)

/-! ## Tracker lemmas: the disappearance pass -/

theorem lookupCode_filterMap_removeStep (grace now : Nat) (det : List String) :
    ∀ (v : VisibleCodes), keysNodup v → ∀ c,
      lookupCode (v.filterMap (removeStep grace now det)) c =
        (lookupCode v c).bind (removeStep grace now det) := by
  intro v
  induction v with
  | nil =>
    intro _ c
    rfl
  | cons code t ih =>
    intro hnd c
    have hnd2 : code.content ∉ t.map (fun x => x.content) ∧ keysNodup t := by
      simpa [keysNodup] using hnd
    rw [List.filterMap_cons]
    by_cases hc : (code.content == c) = true
    · have hceq : code.content = c := by simpa using hc
      have hhead : lookupCode (code :: t) c = some code := by
        unfold lookupCode
        rw [List.find?_cons_of_pos _ (by exact hc)]
      rw [hhead]
      cases hr : removeStep grace now det code with
      | none =>
        have hnone : lookupCode (t.filterMap (removeStep grace now det)) c = none := by
          unfold lookupCode
          apply List.find?_eq_none.mpr
          intro x hx
          rcases List.mem_filterMap.mp hx with ⟨a, ha, hfa⟩
          have hxa : x.content = a.content := removeStep_content hfa
          intro hxc
          have hac : a.content = c := by
            rw [← hxa]
            simpa using hxc
          have hmem : a.content ∈ t.map (fun x => x.content) :=
            List.mem_map.mpr ⟨a, ha, rfl⟩
          rw [hac.trans hceq.symm] at hmem
          exact hnd2.1 hmem
        have hbind : (some code).bind (removeStep grace now det) = none := by
          simp [hr]
        rw [hnone, hbind]
      | some c2 =>
        have hc2 : (c2.content == c) = true := by
          simp [removeStep_content hr, hceq]
        have hbind : (some code).bind (removeStep grace now det) = some c2 := by
          simp [hr]
        rw [hbind]
        unfold lookupCode
        rw [List.find?_cons_of_pos _ (by exact hc2)]
    · have hhead : lookupCode (code :: t) c = lookupCode t c := by
        unfold lookupCode
        rw [List.find?_cons_of_neg _ (by simpa using hc)]
      rw [hhead]
      cases hr : removeStep grace now det code with
      | none => exact ih hnd2.2 c
      | some c2 =>
        have hc2 : ¬(c2.content == c) = true := by
          simpa [removeStep_content hr] using hc
        unfold lookupCode at ih ⊢
        rw [List.find?_cons_of_neg _ (by simpa using hc2)]
        exact ih hnd2.2 c

/-! ## Tracker lemmas: one full scan cycle -/

theorem lookupCode_scan (grace : Nat) (parse : String → Option ItemQRData)
    (now : Nat) (det : List String) (v : VisibleCodes) (hnd : keysNodup v)
    (c : String) :
    lookupCode (scanAndCompare grace parse now (.ok det) v).1 c =
      if c ∈ det then some (detUpdate parse now v c)
      else (lookupCode v c).bind (removeStep grace now det) := by
  show lookupCode ((processDetections parse now det v).1.filterMap
    (removeStep grace now det)) c = _
  rw [lookupCode_filterMap_removeStep grace now det _
    (keysNodup_processDetections parse now det v hnd) c]
  rw [lookupCode_processDetections]
  by_cases hc : c ∈ det
  · rw [if_pos hc, if_pos hc]
    have hstep : removeStep grace now det (detUpdate parse now v c) =
        some (detUpdate parse now v c) := by
      unfold removeStep
      rw [if_pos (by rw [detUpdate_content]; exact hc)]
    simp [hstep]
  · rw [if_neg hc, if_neg hc]

theorem processDetections_events_appeared (parse : String → Option ItemQRData)
    (now : Nat) (det : List String) (v : VisibleCodes) :
    ∀ e ∈ (processDetections parse now det v).2, ∃ p, e = .appeared p := by
  unfold processDetections
  suffices h : ∀ (acc : VisibleCodes × List ScanEvent),
      (∀ e ∈ acc.2, ∃ p, e = ScanEvent.appeared p) →
      ∀ e ∈ (det.foldl (fun acc p =>
        match lookupCode acc.1 p with
        | some _ =>
          (acc.1.map (fun code =>
            if code.content == p then refreshCode now code else code), acc.2)
        | none => (acc.1 ++ [freshCode parse now p], acc.2 ++ [.appeared p]))
        acc).2, ∃ p, e = ScanEvent.appeared p by
    exact h (v, []) (by intro e he; cases he)
  induction det with
  | nil => exact fun acc hacc => hacc
  | cons p t ih =>
    intro acc hacc
    rw [List.foldl_cons]
    cases hl : lookupCode acc.1 p with
    | some code => exact ih _ hacc
    | none =>
      refine ih _ ?_
      intro e he
      rcases List.mem_append.mp he with he2 | he2
      · exact hacc e he2
      · rcases List.mem_singleton.mp he2 with rfl
        exact ⟨p, rfl⟩

theorem scan_disappeared_iff (grace : Nat) (parse : String → Option ItemQRData)
    (now : Nat) (det : List String) (v : VisibleCodes) (hnd : keysNodup v)
    (p : String) :
    ScanEvent.disappeared p ∈ (scanAndCompare grace parse now (.ok det) v).2 ↔
      ∃ code, lookupCode (processDetections parse now det v).1 p = some code ∧
        removeStep grace now det code = none := by
  have hnd1 : keysNodup (processDetections parse now det v).1 :=
    keysNodup_processDetections parse now det v hnd
  show ScanEvent.disappeared p ∈
      (processDetections parse now det v).2 ++
        ((processDetections parse now det v).1.filter (fun code =>
          (removeStep grace now det code).isNone)).map
          (fun code => ScanEvent.disappeared code.content) ↔ _
  constructor
  · intro hmem
    rcases List.mem_append.mp hmem with h | h
    · rcases processDetections_events_appeared parse now det v _ h with ⟨q, hq⟩
      cases hq
    · rcases List.mem_map.mp h with ⟨code, hcode, heq⟩
      have hcp : code.content = p := by
        injection heq
      rcases List.mem_filter.mp hcode with ⟨hmem1, hrem⟩
      refine ⟨code, ?_, ?_⟩
      · rw [← hcp]
        exact lookupCode_of_mem_nodup hnd1 hmem1
      · simpa using hrem
  · rintro ⟨code, hlook, hrem⟩
    refine List.mem_append.mpr (Or.inr ?_)
    have hmem1 := List.mem_of_find?_eq_some hlook
    have hcp : code.content = p := lookupCode_content hlook
    refine List.mem_map.mpr ⟨code, List.mem_filter.mpr ⟨hmem1, by simp [hrem]⟩, ?_⟩
    rw [hcp]

theorem removeStep_detected {grace now : Nat} {det : List String}
    {code : DetectedQRCode} (hdet : code.content ∈ det) :
    removeStep grace now det code = some code := by
  unfold removeStep
  rw [if_pos hdet]

theorem removeStep_zero {now : Nat} {det : List String} {code : DetectedQRCode}
    (habs : code.content ∉ det) : removeStep 0 now det code = none := by
  unfold removeStep
  rw [if_neg habs, if_pos rfl]

theorem removeStep_marks {grace now : Nat} {det : List String}
    {code : DetectedQRCode} (habs : code.content ∉ det) (hg : grace ≠ 0)
    (hp : code.pendingRemoval = false) :
    removeStep grace now det code =
      some { code with pendingRemoval := true, disappearedAt := now } := by
  unfold removeStep
  rw [if_neg habs, if_neg hg, if_pos (by rw [hp]; rfl)]

theorem removeStep_keeps {grace now : Nat} {det : List String}
    {code : DetectedQRCode} (habs : code.content ∉ det) (hg : grace ≠ 0)
    (hp : code.pendingRemoval = true) (hlt : now - code.disappearedAt < grace) :
    removeStep grace now det code = some code := by
  unfold removeStep
  rw [if_neg habs, if_neg hg, if_neg (by rw [hp]; simp), if_neg (by omega)]

theorem removeStep_removes {grace now : Nat} {det : List String}
    {code : DetectedQRCode} (habs : code.content ∉ det) (hg : grace ≠ 0)
    (hp : code.pendingRemoval = true) (hge : grace ≤ now - code.disappearedAt) :
    removeStep grace now det code = none := by
  unfold removeStep
  rw [if_neg habs, if_neg hg, if_neg (by rw [hp]; simp), if_pos hge]

theorem lookupCode_scan_absent (grace : Nat) (parse : String → Option ItemQRData)
    (now : Nat) (det : List String) (v : VisibleCodes) (hnd : keysNodup v)
    (p : String) (code : DetectedQRCode) (habs : p ∉ det)
    (hv : lookupCode v p = some code) :
    lookupCode (scanAndCompare grace parse now (.ok det) v).1 p =
      removeStep grace now det code := by
  rw [lookupCode_scan grace parse now det v hnd p, if_neg habs, hv]
  rfl

theorem lookupCode_scan_detected (grace : Nat) (parse : String → Option ItemQRData)
    (now : Nat) (det : List String) (v : VisibleCodes) (hnd : keysNodup v)
    (p : String) (hp : p ∈ det) :
    lookupCode (scanAndCompare grace parse now (.ok det) v).1 p =
      some (detUpdate parse now v p) := by
  rw [lookupCode_scan grace parse now det v hnd p, if_pos hp]

theorem scan_no_disappeared_of_detected (grace : Nat)
    (parse : String → Option ItemQRData) (now : Nat) (det : List String)
    (v : VisibleCodes) (hnd : keysNodup v) (p : String) (hp : p ∈ det) :
    ScanEvent.disappeared p ∉ (scanAndCompare grace parse now (.ok det) v).2 := by
  rw [scan_disappeared_iff grace parse now det v hnd p]
  rintro ⟨code, hlk, hrm⟩
  rw [lookupCode_processDetections, if_pos hp] at hlk
  injection hlk with h
  subst h
  rw [removeStep_detected (by rw [detUpdate_content]; exact hp)] at hrm
  cases hrm

theorem scan_no_disappeared_of_kept (grace : Nat)
    (parse : String → Option ItemQRData) (now : Nat) (det : List String)
    (v : VisibleCodes) (hnd : keysNodup v) (p : String) (code : DetectedQRCode)
    (habs : p ∉ det) (hv : lookupCode v p = some code)
    (hkeep : removeStep grace now det code ≠ none) :
    ScanEvent.disappeared p ∉ (scanAndCompare grace parse now (.ok det) v).2 := by
  rw [scan_disappeared_iff grace parse now det v hnd p]
  rintro ⟨code2, hlk, hrm⟩
  rw [lookupCode_processDetections, if_neg habs, hv] at hlk
  injection hlk with h
  subst h
  exact hkeep hrm

theorem scan_disappeared_of_removed (grace : Nat)
    (parse : String → Option ItemQRData) (now : Nat) (det : List String)
    (v : VisibleCodes) (hnd : keysNodup v) (p : String) (code : DetectedQRCode)
    (habs : p ∉ det) (hv : lookupCode v p = some code)
    (hrem : removeStep grace now det code = none) :
    ScanEvent.disappeared p ∈ (scanAndCompare grace parse now (.ok det) v).2 :=
  (scan_disappeared_iff grace parse now det v hnd p).mpr
    ⟨code, by rw [lookupCode_processDetections, if_neg habs]; exact hv, hrem⟩

/-! ## Claim theorems: presence tracker -/

/-- C3.  When the detector call fails, the scan cycle aborts without mutating
the tracker's state: the visible-code set after the failed cycle is the very
set before it and no event is emitted; the failure is swallowed (the cycle
returns normally) rather than propagated as a fatal error. -/
theorem scan_detector_error_no_mutation (grace : Nat)
    (parse : String → Option ItemQRData) (now : Nat) (e : String)
    (v : VisibleCodes) :
    scanAndCompare grace parse now (.error e) v = (v, []) := rfl

/-- C2.  A visible payload absent from a scan's detections is deleted on that
very scan when the grace period is zero (with a disappearance event);
otherwise its first missed scan only marks it pendingRemoval with
disappearedAt = now, and once pending it is deleted exactly on a scan at
which now - disappearedAt has reached the grace period, i.e. (when
disappearedAt ≤ now) exactly once now ≥ disappearedAt + gracePeriod. -/
theorem scan_grace_removal (grace : Nat) (parse : String → Option ItemQRData)
    (now : Nat) (det : List String) (v : VisibleCodes) (p : String)
    (code : DetectedQRCode) (hnd : keysNodup v)
    (hv : lookupCode v p = some code) (habs : p ∉ det) :
    (grace = 0 →
      lookupCode (scanAndCompare grace parse now (.ok det) v).1 p = none ∧
      ScanEvent.disappeared p ∈ (scanAndCompare grace parse now (.ok det) v).2) ∧
    (grace ≠ 0 → code.pendingRemoval = false →
      lookupCode (scanAndCompare grace parse now (.ok det) v).1 p =
        some { code with pendingRemoval := true, disappearedAt := now }) ∧
    (grace ≠ 0 → code.pendingRemoval = true →
      (lookupCode (scanAndCompare grace parse now (.ok det) v).1 p = none ↔
        grace ≤ now - code.disappearedAt)) ∧
    (grace ≠ 0 → code.pendingRemoval = true → code.disappearedAt ≤ now →
      (lookupCode (scanAndCompare grace parse now (.ok det) v).1 p = none ↔
        code.disappearedAt + grace ≤ now)) := by
  have hcc : code.content = p := lookupCode_content hv
  have habs2 : code.content ∉ det := by
    rw [hcc]
    exact habs
  have hm := lookupCode_scan_absent grace parse now det v hnd p code habs hv
  refine ⟨?_, ?_, ?_, ?_⟩
  · intro hg0
    subst hg0
    refine ⟨?_, ?_⟩
    · rw [hm, removeStep_zero habs2]
    · exact scan_disappeared_of_removed 0 parse now det v hnd p code habs hv
        (removeStep_zero habs2)
  · intro hg hpf
    rw [hm, removeStep_marks habs2 hg hpf]
  · intro hg hpt
    rw [hm]
    by_cases hle : grace ≤ now - code.disappearedAt
    · rw [removeStep_removes habs2 hg hpt hle]
      simp [hle]
    · rw [removeStep_keeps habs2 hg hpt (by omega)]
      simp [hle]
  · intro hg hpt hda
    rw [hm]
    by_cases hle : grace ≤ now - code.disappearedAt
    · rw [removeStep_removes habs2 hg hpt hle]
      simp only [true_iff]
      omega
    · rw [removeStep_keeps habs2 hg hpt (by omega)]
      constructor
      · intro hcontra
        cases hcontra
      · intro hcon
        exact absurd hcon (by omega)

/-- Witness for C2: zero grace deletes at once; a positive grace first marks
the entry and deletes it exactly when the window has elapsed. -/
theorem scan_grace_removal_witness :
    lookupCode (scanAndCompare 0 (fun _ => none) 5 (.ok [])
      [⟨"A", "", "", 0, 0, false, 0⟩]).1 "A" = none ∧
    lookupCode (scanAndCompare 200 (fun _ => none) 1000 (.ok [])
      [⟨"A", "", "", 0, 0, false, 0⟩]).1 "A" =
      some ⟨"A", "", "", 0, 0, true, 1000⟩ ∧
    (lookupCode (scanAndCompare 200 (fun _ => none) 1300 (.ok [])
      [⟨"A", "", "", 0, 0, true, 1000⟩]).1 "A" = none ↔ 1000 + 200 ≤ 1300) :=
  ⟨((scan_grace_removal 0 (fun _ => none) 5 [] [⟨"A", "", "", 0, 0, false, 0⟩]
      "A" ⟨"A", "", "", 0, 0, false, 0⟩ (by unfold keysNodup; decide) rfl (by decide)).1 rfl).1,
   (scan_grace_removal 200 (fun _ => none) 1000 [] [⟨"A", "", "", 0, 0, false, 0⟩]
      "A" ⟨"A", "", "", 0, 0, false, 0⟩ (by unfold keysNodup; decide) rfl (by decide)).2.1
      (by decide) rfl,
   (scan_grace_removal 200 (fun _ => none) 1300 [] [⟨"A", "", "", 0, 0, true, 1000⟩]
      "A" ⟨"A", "", "", 0, 0, true, 1000⟩ (by unfold keysNodup; decide) rfl (by decide)).2.2.2
      (by decide) rfl (by decide)⟩

/-- C9.  Every payload of a scan's detections ends up in the visible set
keyed by its content (totally, with no error path): a payload new to the set
is inserted as a fresh entry whose itemID/itemName are populated exactly when
the parse step succeeds (both fields of the wire format present) and are left
empty otherwise; a payload already present is kept (refreshed). -/
theorem scan_tracks_every_payload (grace : Nat)
    (parse : String → Option ItemQRData) (now : Nat) (det : List String)
    (v : VisibleCodes) (p : String) (hnd : keysNodup v) (hp : p ∈ det) :
    (∃ code, lookupCode (scanAndCompare grace parse now (.ok det) v).1 p =
      some code ∧ code.content = p) ∧
    (lookupCode v p = none →
      lookupCode (scanAndCompare grace parse now (.ok det) v).1 p =
        some (freshCode parse now p) ∧
      (parse p = none → (freshCode parse now p).itemID = "" ∧
        (freshCode parse now p).itemName = "") ∧
      (∀ d, parse p = some d → (freshCode parse now p).itemID = d.itemID ∧
        (freshCode parse now p).itemName = d.itemName)) ∧
    (∀ code, lookupCode v p = some code →
      lookupCode (scanAndCompare grace parse now (.ok det) v).1 p =
        some (refreshCode now code)) := by
  have hm := lookupCode_scan_detected grace parse now det v hnd p hp
  refine ⟨⟨detUpdate parse now v p, hm, detUpdate_content parse now v p⟩, ?_, ?_⟩
  · intro hnone
    have hfresh : detUpdate parse now v p = freshCode parse now p := by
      unfold detUpdate
      rw [hnone]
    refine ⟨by rw [hm, hfresh], ?_, ?_⟩
    · intro hparse
      unfold freshCode
      rw [hparse]
      exact ⟨rfl, rfl⟩
    · intro d hparse
      unfold freshCode
      rw [hparse]
      exact ⟨rfl, rfl⟩
  · intro code hsome
    have hre : detUpdate parse now v p = refreshCode now code := by
      unfold detUpdate
      rw [hsome]
    rw [hm, hre]

/-- Witness for C9: an unparseable payload is inserted with empty item
fields; a parseable one carries its decoded fields. -/
theorem scan_tracks_every_payload_witness :
    lookupCode (scanAndCompare 200 (fun _ => none) 7 (.ok ["u"]) []).1 "u" =
      some ⟨"u", "", "", 7, 7, false, 0⟩ ∧
    lookupCode (scanAndCompare 200 (fun _ => some ⟨"i", "n"⟩) 7 (.ok ["q"]) []).1 "q" =
      some ⟨"q", "i", "n", 7, 7, false, 0⟩ :=
  ⟨((scan_tracks_every_payload 200 (fun _ => none) 7 ["u"] [] "u"
      (by unfold keysNodup; decide) (by decide)).2.1 rfl).1,
   ((scan_tracks_every_payload 200 (fun _ => some ⟨"i", "n"⟩) 7 ["q"] [] "q"
      (by unfold keysNodup; decide) (by decide)).2.1 rfl).1⟩

/-- C1.  A visible payload that stops being detected and is detected again
within its grace window never triggers a disappearance event for that gap:
the first missed scan only marks it pending, the reappearing scan clears the
flag and resets the timer, and a later disappearance is confirmed (removal
plus disappearance event) only once a full new grace period measured from the
later disappearance has elapsed — staying untouched beforehand even though
the time since the first disappearance already exceeds the grace period. -/
theorem scan_reappear_resets_grace
    (grace t1 t2 t3 t4 t5 : Nat) (parse : String → Option ItemQRData)
    (v : VisibleCodes) (p : String) (code0 : DetectedQRCode)
    (det1 det2 det3 det4 det5 : List String)
    (hnd : keysNodup v) (hg : 0 < grace)
    (h0 : lookupCode v p = some code0) (h0p : code0.pendingRemoval = false)
    (h1 : p ∉ det1) (h2 : p ∈ det2) (h3 : p ∉ det3) (h4 : p ∉ det4)
    (h5 : p ∉ det5)
    (_hwin : t2 - t1 < grace) (hshort : t4 - t3 < grace) (hfull : grace ≤ t5 - t3)
    (s1 s2 s3 s4 s5 : VisibleCodes × List ScanEvent)
    (hs1 : s1 = scanAndCompare grace parse t1 (.ok det1) v)
    (hs2 : s2 = scanAndCompare grace parse t2 (.ok det2) s1.1)
    (hs3 : s3 = scanAndCompare grace parse t3 (.ok det3) s2.1)
    (hs4 : s4 = scanAndCompare grace parse t4 (.ok det4) s3.1)
    (hs5 : s5 = scanAndCompare grace parse t5 (.ok det5) s3.1) :
    lookupCode s1.1 p =
      some { code0 with pendingRemoval := true, disappearedAt := t1 } ∧
    ScanEvent.disappeared p ∉ s1.2 ∧
    ScanEvent.disappeared p ∉ s2.2 ∧
    lookupCode s2.1 p =
      some { code0 with lastSeen := t2, pendingRemoval := false, disappearedAt := 0 } ∧
    lookupCode s3.1 p =
      some { code0 with lastSeen := t2, pendingRemoval := true, disappearedAt := t3 } ∧
    ScanEvent.disappeared p ∉ s3.2 ∧
    lookupCode s4.1 p =
      some { code0 with lastSeen := t2, pendingRemoval := true, disappearedAt := t3 } ∧
    ScanEvent.disappeared p ∉ s4.2 ∧
    lookupCode s5.1 p = none ∧
    ScanEvent.disappeared p ∈ s5.2 := by
  subst hs1 hs2 hs3 hs4 hs5
  have hg0 : grace ≠ 0 := by omega
  have hcc : code0.content = p := lookupCode_content h0
  have hnd1 := keysNodup_scan grace parse t1 det1 v hnd
  have habs1 : code0.content ∉ det1 := by
    rw [hcc]
    exact h1
  have e1 : lookupCode (scanAndCompare grace parse t1 (.ok det1) v).1 p =
      some { code0 with pendingRemoval := true, disappearedAt := t1 } := by
    rw [lookupCode_scan_absent grace parse t1 det1 v hnd p code0 h1 h0,
      removeStep_marks habs1 hg0 h0p]
  have n1 : ScanEvent.disappeared p ∉
      (scanAndCompare grace parse t1 (.ok det1) v).2 :=
    scan_no_disappeared_of_kept grace parse t1 det1 v hnd p code0 h1 h0
      (by rw [removeStep_marks habs1 hg0 h0p]; simp)
  have n2 : ScanEvent.disappeared p ∉
      (scanAndCompare grace parse t2 (.ok det2)
        (scanAndCompare grace parse t1 (.ok det1) v).1).2 :=
    scan_no_disappeared_of_detected grace parse t2 det2 _ hnd1 p h2
  have e2 : lookupCode (scanAndCompare grace parse t2 (.ok det2)
      (scanAndCompare grace parse t1 (.ok det1) v).1).1 p =
      some { code0 with lastSeen := t2, pendingRemoval := false, disappearedAt := 0 } := by
    rw [lookupCode_scan_detected grace parse t2 det2 _ hnd1 p h2]
    unfold detUpdate
    rw [e1]
    rfl
  have hnd2 := keysNodup_scan grace parse t2 det2 _ hnd1
  have habs3 : ({ code0 with lastSeen := t2, pendingRemoval := false, disappearedAt := 0 } : DetectedQRCode).content ∉ det3 := by
    simpa [hcc] using h3
  have e3 : lookupCode (scanAndCompare grace parse t3 (.ok det3)
      (scanAndCompare grace parse t2 (.ok det2)
        (scanAndCompare grace parse t1 (.ok det1) v).1).1).1 p =
      some { code0 with lastSeen := t2, pendingRemoval := true, disappearedAt := t3 } := by
    rw [lookupCode_scan_absent grace parse t3 det3 _ hnd2 p _ h3 e2,
      removeStep_marks habs3 hg0 rfl]
  have n3 : ScanEvent.disappeared p ∉
      (scanAndCompare grace parse t3 (.ok det3)
        (scanAndCompare grace parse t2 (.ok det2)
          (scanAndCompare grace parse t1 (.ok det1) v).1).1).2 :=
    scan_no_disappeared_of_kept grace parse t3 det3 _ hnd2 p _ h3 e2
      (by rw [removeStep_marks habs3 hg0 rfl]; simp)
  have hnd3 := keysNodup_scan grace parse t3 det3 _ hnd2
  have habs4 : ({ code0 with lastSeen := t2, pendingRemoval := true, disappearedAt := t3 } : DetectedQRCode).content ∉ det4 := by
    simpa [hcc] using h4
  have habs5 : ({ code0 with lastSeen := t2, pendingRemoval := true, disappearedAt := t3 } : DetectedQRCode).content ∉ det5 := by
    simpa [hcc] using h5
  have e4 : lookupCode (scanAndCompare grace parse t4 (.ok det4)
      (scanAndCompare grace parse t3 (.ok det3)
        (scanAndCompare grace parse t2 (.ok det2)
          (scanAndCompare grace parse t1 (.ok det1) v).1).1).1).1 p =
      some { code0 with lastSeen := t2, pendingRemoval := true, disappearedAt := t3 } := by
    rw [lookupCode_scan_absent grace parse t4 det4 _ hnd3 p _ h4 e3,
      removeStep_keeps habs4 hg0 rfl hshort]
  have n4 : ScanEvent.disappeared p ∉
      (scanAndCompare grace parse t4 (.ok det4)
        (scanAndCompare grace parse t3 (.ok det3)
          (scanAndCompare grace parse t2 (.ok det2)
            (scanAndCompare grace parse t1 (.ok det1) v).1).1).1).2 :=
    scan_no_disappeared_of_kept grace parse t4 det4 _ hnd3 p _ h4 e3
      (by rw [removeStep_keeps habs4 hg0 rfl hshort]; simp)
  have e5 : lookupCode (scanAndCompare grace parse t5 (.ok det5)
      (scanAndCompare grace parse t3 (.ok det3)
        (scanAndCompare grace parse t2 (.ok det2)
          (scanAndCompare grace parse t1 (.ok det1) v).1).1).1).1 p = none := by
    rw [lookupCode_scan_absent grace parse t5 det5 _ hnd3 p _ h5 e3,
      removeStep_removes habs5 hg0 rfl hfull]
  have m5 : ScanEvent.disappeared p ∈
      (scanAndCompare grace parse t5 (.ok det5)
        (scanAndCompare grace parse t3 (.ok det3)
          (scanAndCompare grace parse t2 (.ok det2)
            (scanAndCompare grace parse t1 (.ok det1) v).1).1).1).2 :=
    scan_disappeared_of_removed grace parse t5 det5 _ hnd3 p _ h5 e3
      (removeStep_removes habs5 hg0 rfl hfull)
  exact ⟨e1, n1, n2, e2, e3, n3, e4, n4, e5, m5⟩

/-- Witness for C1: grace 200 ms, code "A" disappears at 1000, reappears at
1100, disappears again at 1500; at 1600 (after the first window would have
expired) it is still tracked, and at 1700 (a full new window after 1500) it
is removed with a disappearance event. -/
theorem scan_reappear_resets_grace_witness :
    lookupCode (scanAndCompare 200 (fun _ => none) 1000 (.ok [])
      [⟨"A", "", "", 0, 900, false, 0⟩]).1 "A" =
      some ⟨"A", "", "", 0, 900, true, 1000⟩ ∧
    ScanEvent.disappeared "A" ∉ (scanAndCompare 200 (fun _ => none) 1000 (.ok [])
      [⟨"A", "", "", 0, 900, false, 0⟩]).2 ∧
    ScanEvent.disappeared "A" ∉ (scanAndCompare 200 (fun _ => none) 1100 (.ok ["A"])
      (scanAndCompare 200 (fun _ => none) 1000 (.ok [])
        [⟨"A", "", "", 0, 900, false, 0⟩]).1).2 ∧
    lookupCode (scanAndCompare 200 (fun _ => none) 1100 (.ok ["A"])
      (scanAndCompare 200 (fun _ => none) 1000 (.ok [])
        [⟨"A", "", "", 0, 900, false, 0⟩]).1).1 "A" =
      some ⟨"A", "", "", 0, 1100, false, 0⟩ ∧
    lookupCode (scanAndCompare 200 (fun _ => none) 1500 (.ok [])
      (scanAndCompare 200 (fun _ => none) 1100 (.ok ["A"])
        (scanAndCompare 200 (fun _ => none) 1000 (.ok [])
          [⟨"A", "", "", 0, 900, false, 0⟩]).1).1).1 "A" =
      some ⟨"A", "", "", 0, 1100, true, 1500⟩ ∧
    ScanEvent.disappeared "A" ∉ (scanAndCompare 200 (fun _ => none) 1500 (.ok [])
      (scanAndCompare 200 (fun _ => none) 1100 (.ok ["A"])
        (scanAndCompare 200 (fun _ => none) 1000 (.ok [])
          [⟨"A", "", "", 0, 900, false, 0⟩]).1).1).2 ∧
    lookupCode (scanAndCompare 200 (fun _ => none) 1600 (.ok [])
      (scanAndCompare 200 (fun _ => none) 1500 (.ok [])
        (scanAndCompare 200 (fun _ => none) 1100 (.ok ["A"])
          (scanAndCompare 200 (fun _ => none) 1000 (.ok [])
            [⟨"A", "", "", 0, 900, false, 0⟩]).1).1).1).1 "A" =
      some ⟨"A", "", "", 0, 1100, true, 1500⟩ ∧
    ScanEvent.disappeared "A" ∉ (scanAndCompare 200 (fun _ => none) 1600 (.ok [])
      (scanAndCompare 200 (fun _ => none) 1500 (.ok [])
        (scanAndCompare 200 (fun _ => none) 1100 (.ok ["A"])
          (scanAndCompare 200 (fun _ => none) 1000 (.ok [])
            [⟨"A", "", "", 0, 900, false, 0⟩]).1).1).1).2 ∧
    lookupCode (scanAndCompare 200 (fun _ => none) 1700 (.ok [])
      (scanAndCompare 200 (fun _ => none) 1500 (.ok [])
        (scanAndCompare 200 (fun _ => none) 1100 (.ok ["A"])
          (scanAndCompare 200 (fun _ => none) 1000 (.ok [])
            [⟨"A", "", "", 0, 900, false, 0⟩]).1).1).1).1 "A" = none ∧
    ScanEvent.disappeared "A" ∈ (scanAndCompare 200 (fun _ => none) 1700 (.ok [])
      (scanAndCompare 200 (fun _ => none) 1500 (.ok [])
        (scanAndCompare 200 (fun _ => none) 1100 (.ok ["A"])
          (scanAndCompare 200 (fun _ => none) 1000 (.ok [])
            [⟨"A", "", "", 0, 900, false, 0⟩]).1).1).1).2 :=
  scan_reappear_resets_grace 200 1000 1100 1500 1600 1700 (fun _ => none)
    [⟨"A", "", "", 0, 900, false, 0⟩] "A" ⟨"A", "", "", 0, 900, false, 0⟩
    [] ["A"] [] [] []
    (by unfold keysNodup; decide) (by decide) rfl rfl
    (by decide) (by decide) (by decide) (by decide) (by decide)
    (by decide) (by decide) (by decide)
    _ _ _ _ _ rfl rfl rfl rfl rfl

/-! ## Claim theorems: command dispatcher -/

/-- C8.  The dispatcher routes the named inventory commands to the
corresponding ledger operations without logic of its own: an add_item command
with string item_id/item_name fields calls addItem — for a fresh item_id it
returns a success response carrying state on_shelf and a checked_in_at
timestamp (not an unknown-command error) and leaves the ledger exactly as
addItem does — and get_inventory, checkout_item, return_item and remove_item
likewise produce the state of getInventory, checkoutItem, returnItem and
removeItem respectively. -/
theorem doCommand_dispatch (now : Nat) (inv : Inventory) (id name : String)
    (hfresh : lookupItem inv id = none) :
    (∃ r, (doCommand now ⟨some "add_item", some id, some name, none⟩ inv).1 =
        .ok r ∧ ("state", "on_shelf") ∈ r ∧ ("checked_in_at", toString now) ∈ r) ∧
    (doCommand now ⟨some "add_item", some id, some name, none⟩ inv).2 =
      (addItem now id name inv).2 ∧
    doCommand now ⟨some "get_inventory", none, none, none⟩ inv =
      (.ok (inventoryResponse (getInventory none inv)), inv) ∧
    (∀ id2, (doCommand now ⟨some "checkout_item", some id2, none, none⟩ inv).2 =
      (checkoutItem now id2 inv).2) ∧
    (∀ id2, (doCommand now ⟨some "return_item", some id2, none, none⟩ inv).2 =
      (returnItem now id2 inv).2) ∧
    (∀ id2, (doCommand now ⟨some "remove_item", some id2, none, none⟩ inv).2 =
      (removeItem id2 inv).2) := by
  have hadd := addItem_eq_none hfresh now name
  have hdo : doCommand now ⟨some "add_item", some id, some name, none⟩ inv =
      (.ok [("item_id", id), ("item_name", name),
            ("state", ItemState.render .onShelf), ("checked_in_at", toString now)],
       inv ++ [⟨id, name, .onShelf, now, 0⟩]) := by
    show (match addItem now id name inv with
      | (.ok item, inv2) =>
        ((.ok [("item_id", item.itemID), ("item_name", item.itemName),
          ("state", item.state.render),
          ("checked_in_at", toString item.checkedInAt)] :
            Except String Response), inv2)
      | (.error _, inv2) => (.error ("item already exists: " ++ id), inv2)) = _
    rw [hadd]
  refine ⟨?_, ?_, rfl, ?_, ?_, ?_⟩
  · refine ⟨_, by rw [hdo], by simp [ItemState.render], by simp⟩
  · rw [hdo, hadd]
  · intro id2
    show (match checkoutItem now id2 inv with
      | (.ok (prev, item), inv2) =>
        ((.ok [("item_id", item.itemID), ("item_name", item.itemName),
          ("state", item.state.render), ("previous_state", prev.render),
          ("checked_out_at", toString item.checkedOutAt)] :
            Except String Response), inv2)
      | (.error _, inv2) => (.error ("item not found: " ++ id2), inv2)).2 =
      (checkoutItem now id2 inv).2
    cases hck : checkoutItem now id2 inv with
    | mk res inv2 =>
      cases res with
      | error e => rfl
      | ok pr =>
        cases pr with
        | mk prev item => rfl
  · intro id2
    show (match returnItem now id2 inv with
      | (.ok (prev, item), inv2) =>
        ((.ok [("item_id", item.itemID), ("item_name", item.itemName),
          ("state", item.state.render), ("previous_state", prev.render),
          ("checked_in_at", toString item.checkedInAt)] :
            Except String Response), inv2)
      | (.error _, inv2) => (.error ("item not found: " ++ id2), inv2)).2 =
      (returnItem now id2 inv).2
    cases hrt : returnItem now id2 inv with
    | mk res inv2 =>
      cases res with
      | error e => rfl
      | ok pr =>
        cases pr with
        | mk prev item => rfl
  · intro id2
    show (match removeItem id2 inv with
      | (.ok _, inv2) =>
        ((.ok [("item_id", id2), ("removed", "true")] :
            Except String Response), inv2)
      | (.error _, inv2) => (.error ("item not found: " ++ id2), inv2)).2 =
      (removeItem id2 inv).2
    cases hrm : removeItem id2 inv with
    | mk res inv2 =>
      cases res with
      | error e => rfl
      | ok b => rfl

/-- Witness for C8 on a concrete fresh ledger. -/
theorem doCommand_dispatch_witness :
    (doCommand 3 ⟨some "add_item", some "x", some "X", none⟩ []).2 =
      (addItem 3 "x" "X" []).2 ∧
    (doCommand 3 ⟨some "checkout_item", some "x", none, none⟩ []).2 =
      (checkoutItem 3 "x" []).2 :=
  ⟨(doCommand_dispatch 3 [] "x" "X" rfl).2.1,
   (doCommand_dispatch 3 [] "x" "X" rfl).2.2.2.1 "x"⟩

end InventoryKeeper

